import Mathlib

/-!
Verification of the ai-context repository (reddit_search.py, youtube_search.py).

The Python source is shallowly embedded: each Lean definition mirrors one
function (or a cohesive fragment of one function) of the source.  External
library collaborators (PRAW, the YouTube APIs, html.unescape, googlesearch)
are modelled by their observable behaviour at the call site, with the data
they return passed in as explicit parameters.
-/

/- ===================== Definitions: Reddit data model ===================== -/

/-- Mirrors the `RedditComment` dataclass of reddit_search.py. -/
structure RedditComment where
  author : String
  score : Int
  body : String
  created_utc : String
deriving DecidableEq, Repr

/-- Mirrors the `RedditPost` dataclass of reddit_search.py. -/
structure RedditPost where
  title : String
  author : String
  subreddit : String
  score : Int
  num_comments : Int
  url : String
  selftext : String
  created_utc : String
  comments : List RedditComment
deriving DecidableEq, Repr

/-- A top-level comment as delivered by the PRAW collaborator inside
`__get_post_data`: the fields the list comprehension reads from each
`comment` object.  `author` is `none` for a deleted account, `created_utc`
carries the ISO string `datetime.utcfromtimestamp(...).isoformat()` already
produced by the datetime collaborator. -/
structure RawComment where
  author : Option String
  score : Int
  body : String
  created_utc : String
  stickied : Bool
deriving DecidableEq, Repr

/-- The `RedditComment(...)` construction inside the list comprehension of
`__get_post_data` (lines 148-153): `author=comment.author.name if
comment.author else "[deleted]"`. -/
def mkRedditComment (r : RawComment) : RedditComment :=
  { author := r.author.getD "[deleted]"
    score := r.score
    body := r.body
    created_utc := r.created_utc }

/-- One insertion step of a stable sort by `score` descending: the new
element `x` passes over strictly higher-scored elements and lands in front
of the first element whose score is ≤ its own, so an element with equal
score that was discovered earlier stays in front of `x`. -/
def insertScoreDesc (x : RedditComment) : List RedditComment → List RedditComment
  | [] => [x]
  | y :: ys => if x.score < y.score then y :: insertScoreDesc x ys else x :: y :: ys

/-- Stable sort by `score` descending, modelling Python
`sorted(..., key=lambda x: x.score, reverse=True)` in `__get_post_data`
(lines 146-158): CPython sorted is stable, and with `reverse=True` elements
of equal key keep their original (discovery) order while higher keys come
first.  The characterisation lemmas below (descending pairwise order plus
preservation of each equal-score fibre) pin this behaviour down uniquely. -/
def sortScoreDesc : List RedditComment → List RedditComment
  | [] => []
  | x :: xs => insertScoreDesc x (sortScoreDesc xs)

/-- The comment-processing fragment of `__get_post_data` (lines 143-159):
when `include_comments` is set, build a `RedditComment` for every
non-stickied top-level comment, sort the whole set by score descending
(stable), and only then slice to `comment_limit`. -/
def get_post_comments (raws : List RawComment) (include_comments : Bool)
    (comment_limit : Nat) : List RedditComment :=
  if include_comments then
    (sortScoreDesc ((raws.filter (fun r => !r.stickied)).map mkRedditComment)).take
      comment_limit
  else []

/-- The full available comment set seen by the sort in `__get_post_data`:
non-stickied raw comments, converted. -/
def availableComments (raws : List RawComment) : List RedditComment :=
  (raws.filter (fun r => !r.stickied)).map mkRedditComment

/-- Concrete comment feed whose scores are `[1, 9, 2, 8, 3]` in discovery
order, none stickied: the input of the sort-then-truncate example. -/
def exampleRaws : List RawComment :=
  [ { author := some "u1", score := 1, body := "b1", created_utc := "t1", stickied := false }
  , { author := some "u2", score := 9, body := "b2", created_utc := "t2", stickied := false }
  , { author := some "u3", score := 2, body := "b3", created_utc := "t3", stickied := false }
  , { author := some "u4", score := 8, body := "b4", created_utc := "t4", stickied := false }
  , { author := some "u5", score := 3, body := "b5", created_utc := "t5", stickied := false } ]

/-- Concrete comment feed containing a stickied comment with the highest
score of the whole thread. -/
def exampleRawsStickied : List RawComment :=
  [ { author := some "mod", score := 100, body := "sticky", created_utc := "t0", stickied := true }
  , { author := some "u1", score := 7, body := "c1", created_utc := "t1", stickied := false }
  , { author := some "u2", score := 4, body := "c2", created_utc := "t2", stickied := false } ]

/- ===================== Definitions: URL resolution ===================== -/

/-- The word-character class of the regex escape used in
`__extract_post_id`: Python re \w on ASCII identifiers. -/
def isWordChar (c : Char) : Bool := c.isAlphanum || c = '_'

/-- Match a literal character sequence at the head of a list, returning the
remaining suffix on success (the literal part of regex matching). -/
def stripLit : List Char → List Char → Option (List Char)
  | [], cs => some cs
  | _ :: _, [] => none
  | p :: ps, c :: cs => if p = c then stripLit ps cs else none

/-- Attempt of the first pattern of `__extract_post_id`,
`reddit\.com/r/\w+/comments/(\w+)`, anchored at the current position.
Because `/` is not a word character, the greedy `\w+` of the regex engine
never needs to backtrack here, so maximal munch is equivalent. -/
def matchCommentsAt (cs : List Char) : Option (List Char) :=
  match stripLit "reddit.com/r/".data cs with
  | none => none
  | some rest =>
    let sub := rest.takeWhile isWordChar
    if sub = [] then none
    else
      match stripLit "/comments/".data (rest.dropWhile isWordChar) with
      | none => none
      | some rest2 =>
        let pid := rest2.takeWhile isWordChar
        if pid = [] then none else some pid

/-- `re.search` of the first pattern: try every start position left to
right and return the first captured post id. -/
def searchComments : List Char → Option (List Char)
  | [] => none
  | c :: cs =>
    match matchCommentsAt (c :: cs) with
    | some w => some w
    | none => searchComments cs

/-- Attempt of the second pattern, `redd\.it/(\w+)`, anchored at the
current position. -/
def matchShortAt (cs : List Char) : Option (List Char) :=
  match stripLit "redd.it/".data cs with
  | none => none
  | some rest =>
    let pid := rest.takeWhile isWordChar
    if pid = [] then none else some pid

/-- `re.search` of the second pattern. -/
def searchShort : List Char → Option (List Char)
  | [] => none
  | c :: cs =>
    match matchShortAt (c :: cs) with
    | some w => some w
    | none => searchShort cs

/-- Mirrors `__extract_post_id` (lines 120-130): the two patterns are tried
in order and the first match group is returned; no match at all yields
`None`. -/
def extract_post_id (url : String) : Option String :=
  match searchComments url.data with
  | some w => some (String.mk w)
  | none =>
    match searchShort url.data with
    | some w => some (String.mk w)
    | none => none

/-- Whether the literal sequence `pat` occurs anywhere in `cs` (the
substring test used to speak about presence of a platform marker). -/
def containsSeq (pat : List Char) : List Char → Bool
  | [] => (stripLit pat []).isSome
  | c :: cs => (stripLit pat (c :: cs)).isSome || containsSeq pat cs

/-- The canonical post URL built by `__get_post_data` (line 170),
`f"https://reddit.com{submission.permalink}"`, where the PRAW permalink has
the shape `/r/<subreddit>/comments/<id>/<slug>`. -/
def canonicalPostUrl (sub pid slug : String) : String :=
  "https://reddit.com/r/" ++ sub ++ "/comments/" ++ pid ++ "/" ++ slug

/-- The share-link form of a post URL, matched by the second pattern of
`__extract_post_id`. -/
def shortPostUrl (pid : String) : String :=
  "https://redd.it/" ++ pid

/- ===================== Definitions: search pipeline (reddit) ===================== -/

/-- The per-candidate accumulation loop of `RedditSearcher.search`
(lines 323-353), abstracted over the per-candidate processing: `fetchOne`
collapses URL cleaning, `__extract_post_id` and `__get_post_data`, and
returns `none` whenever the candidate yields no post id, the fetch returns
`None`, or a per-item exception is caught and logged (all three cases fall
through to the next candidate in the source).  A success is appended to the
accumulator and the loop breaks as soon as the accumulated count reaches
`target` (`len(posts) + len(results) >= num_results`). -/
def search_loop (fetchOne : α → Option β) (target : Nat) :
    List α → List β → List β
  | [], acc => acc
  | c :: cs, acc =>
    match fetchOne c with
    | none => search_loop fetchOne target cs acc
    | some p =>
      let acc2 := acc ++ [p]
      if target ≤ acc2.length then acc2 else search_loop fetchOne target cs acc2

/-- The recognized output formats of both `search` entry points. -/
def validFormat (format : String) : Bool :=
  format = "raw" || format = "slim_json" || format = "slim_xml"

/-- The configuration checks at the top of `RedditSearcher.search`
(lines 307-314), in source order, returning the `ValueError` message when
one fires. -/
def reddit_search_validate (format query : String) (num_results : Int) :
    Option String :=
  if !validFormat format then
    some "format must be \x27raw\x27, \x27slim_json\x27, or \x27slim_xml\x27"
  else if query = "" then some "Search query cannot be empty"
  else if !(1 ≤ num_results && num_results ≤ 25) then
    some "num_results must be between 1 and 25"
  else none

/-- `RedditSearcher.search` up to its first network call: validation runs
first and raises synchronously; only afterwards is the discovery provider
invoked (modelled by `run`, whose result stands for everything the network
part produces). -/
def reddit_search (format query : String) (num_results : Int)
    (run : Unit → List β) : Except String (List β) :=
  match reddit_search_validate format query num_results with
  | some msg => Except.error msg
  | none => Except.ok (run ())

/-- `YouTubeSearcher.search_videos` up to its first network call
(lines 139-142): only the format string is validated; `max_results` is
silently clamped to `[1, 10]` and the query is not inspected.  `run`
receives the clamped count and stands for the network part. -/
def youtube_search_videos (query : String) (max_results : Int)
    (format : String) (run : Int → List β) : Except String (List β) :=
  if !validFormat format then
    Except.error "format must be \x27raw\x27, \x27slim_json\x27, or \x27slim_xml"
  else
    Except.ok (run (max 1 (min 10 max_results)))

/- ===================== Definitions: JSON formatting ===================== -/

/-- A JSON value, the shape of the dictionaries built by the two
`__format_slim_json` methods. -/
inductive Json where
  | null : Json
  | str : String → Json
  | int : Int → Json
  | bool : Bool → Json
  | arr : List Json → Json
  | obj : List (String × Json) → Json
deriving Repr

/-- The top-level key list of a JSON object. -/
def Json.keys : Json → List String
  | .obj fields => fields.map Prod.fst
  | _ => []

/-- The per-comment dictionary of `RedditSearcher.__format_slim_json`. -/
def redditCommentJson (c : RedditComment) : Json :=
  Json.obj [("body", Json.str c.body)]

/-- Mirrors `RedditSearcher.__format_slim_json` (lines 179-190). -/
def reddit_format_slim_json (post : RedditPost) : Json :=
  Json.obj
    [ ("title", Json.str post.title)
    , ("subreddit", Json.str post.subreddit)
    , ("url", Json.str post.url)
    , ("selftext", Json.str post.selftext)
    , ("comments", Json.arr (post.comments.map redditCommentJson)) ]

/-- Mirrors the `YouTubeVideo` dataclass of youtube_search.py. -/
structure YouTubeVideo where
  video_id : String
  title : String
  url : String
  channel : String
  published_at : String
  description : String
  has_transcript : Bool
  transcript_preview : Option String
  full_transcript : Option String
deriving DecidableEq, Repr

/-- Python truthiness of an optional string: `None` and `""` are falsy. -/
def optTruthy (o : Option String) : Bool :=
  match o with
  | none => false
  | some s => !(s = "")

/-- The `video.description[:500] + ('...' if len(video.description) > 500
else '')` preview truncation used by both youtube formatters. -/
def truncate500 (s : String) : String :=
  String.mk (s.data.take 500) ++ (if 500 < s.data.length then "..." else "")

/-- Mirrors `YouTubeSearcher.__format_slim_json` (lines 273-288): note the
result keeps the `published_at` timestamp, the `has_transcript` flag and
the `transcript_preview`, and appends `full_transcript` when requested and
truthy. -/
def yt_format_slim_json (video : YouTubeVideo)
    (include_full_transcript : Bool) : Json :=
  Json.obj
    ([ ("title", Json.str video.title)
     , ("channel", Json.str video.channel)
     , ("url", Json.str video.url)
     , ("published_at", Json.str video.published_at)
     , ("description", Json.str (truncate500 video.description))
     , ("has_transcript", Json.bool video.has_transcript)
     , ("transcript_preview",
        match video.transcript_preview with
        | none => Json.null
        | some s => Json.str s) ]
     ++ (if include_full_transcript && optTruthy video.full_transcript then
          [("full_transcript", Json.str (video.full_transcript.getD ""))]
        else []))

/- ===================== Definitions: markup formatting ===================== -/

/-- Models the `html.unescape` collaborator imported by both slim-XML
formatters, restricted to the predefined XML entities `amp`, `lt`, `gt`
and `quot`; every other character passes through unchanged.  Note the
direction: it turns entity references back into raw characters, it does
not escape anything. -/
def htmlUnescapeChars : List Char → List Char
  | [] => []
  | '&' :: 'a' :: 'm' :: 'p' :: ';' :: rest => '&' :: htmlUnescapeChars rest
  | '&' :: 'l' :: 't' :: ';' :: rest => '<' :: htmlUnescapeChars rest
  | '&' :: 'g' :: 't' :: ';' :: rest => '>' :: htmlUnescapeChars rest
  | '&' :: 'q' :: 'u' :: 'o' :: 't' :: ';' :: rest => '"' :: htmlUnescapeChars rest
  | c :: rest => c :: htmlUnescapeChars rest

/-- String wrapper for `htmlUnescapeChars`. -/
def html_unescape (s : String) : String := String.mk (htmlUnescapeChars s.data)

/-- Python `str.split()` with no argument: split on runs of whitespace,
dropping empty pieces. -/
def pyWords : List Char → List Char → List (List Char)
  | [], cur => if cur = [] then [] else [cur.reverse]
  | c :: cs, cur =>
    if c.isWhitespace then
      if cur = [] then pyWords cs [] else cur.reverse :: pyWords cs []
    else pyWords cs (c :: cur)

/-- The whitespace collapsing `' '.join(unescape(str(body)).split())`
applied to each comment body in `__format_slim_xml` (line 266). -/
def collapseWs (s : String) : String :=
  String.intercalate " " ((pyWords s.data []).map String.mk)

/-- The line emitted for one comment by `RedditSearcher.__format_slim_xml`
(lines 257-267), for the dataclass shape of comment: a falsy (empty) body
emits nothing, otherwise the body is html-unescaped, whitespace-collapsed
and embedded with no markup escaping. -/
def redditCommentXmlLines (c : RedditComment) : List String :=
  if c.body = "" then []
  else ["<comment>" ++ collapseWs (html_unescape c.body) ++ "</comment>"]

/-- The lines emitted for one post by `RedditSearcher.__format_slim_xml`
(lines 216-273), for the dataclass input shape (the `isinstance(post,
dict)` fallback branches are unreachable for `RedditPost` values): each
truthy field is embedded between literal tags, the title and selftext
after `html.unescape`, with no markup escaping anywhere. -/
def redditPostXmlLines (post : RedditPost) : List String :=
  ["<post>"]
  ++ (if post.title = "" then []
      else ["<title>" ++ html_unescape post.title ++ "</title>"])
  ++ (if post.subreddit = "" then []
      else ["<subreddit>" ++ post.subreddit ++ "</subreddit>"])
  ++ (if post.url = "" then [] else ["<url>" ++ post.url ++ "</url>"])
  ++ (if post.selftext = "" then []
      else ["<selftext>", html_unescape post.selftext, "</selftext>"])
  ++ (if post.comments = [] then []
      else ["<comments>"]
        ++ (post.comments.map redditCommentXmlLines).flatten
        ++ ["</comments>"])
  ++ ["</post>"]

/-- Mirrors `RedditSearcher.__format_slim_xml` (lines 192-280) on a list of
posts: all per-post fragments inside one `reddit_posts` wrapper, joined by
newlines. -/
def reddit_format_slim_xml (posts : List RedditPost) : String :=
  String.intercalate "\n"
    (["<reddit_posts>"] ++ (posts.map redditPostXmlLines).flatten
      ++ ["</reddit_posts>"])

/-- Mirrors the nested `escape_xml` helper of
`YouTubeSearcher.__format_slim_xml` (lines 292-297): despite its name it
returns its input unchanged (`""` for a falsy value, `str(text)`
otherwise), escaping nothing. -/
def escape_xml (text : String) : String :=
  if text = "" then "" else text

/-- Mirrors `YouTubeSearcher.__format_slim_xml` (lines 290-324): metadata
lines, the truncated description, the transcript preview when truthy and
the full transcript when requested and truthy, each passed through
`html.unescape` and the no-op `escape_xml` only. -/
def yt_format_slim_xml (video : YouTubeVideo)
    (include_full_transcript : Bool) : String :=
  String.intercalate "\n"
    ([ "<title>" ++ escape_xml video.title ++ "</title>"
     , "<channel>" ++ escape_xml video.channel ++ "</channel>"
     , "<url>" ++ escape_xml video.url ++ "</url>"
     , "<published>" ++ escape_xml video.published_at ++ "</published>"
     , "<description>\n"
        ++ escape_xml (html_unescape (truncate500 video.description))
        ++ "\n</description>" ]
     ++ (if optTruthy video.transcript_preview then
          ["<transcript_preview>\n"
            ++ escape_xml (html_unescape (video.transcript_preview.getD ""))
            ++ "\n</transcript_preview>"]
        else [])
     ++ (if include_full_transcript && optTruthy video.full_transcript then
          ["<full_transcript>\n"
            ++ escape_xml (html_unescape (video.full_transcript.getD ""))
            ++ "\n</full_transcript>"]
        else []))

/-- A concrete post whose free text contains characters that are
structurally significant in XML. -/
def unsafePost : RedditPost :=
  { title := "1 < 2 & done"
    author := "u0"
    subreddit := "test"
    score := 10
    num_comments := 0
    url := "https://reddit.com/r/test/comments/x1/t/"
    selftext := ""
    created_utc := "t"
    comments := [] }

/- ===================== Definitions: youtube transcript fetch ===================== -/

/-- Outcome of one iteration of the retry loop in `get_video_transcript`
(lines 91-125), as determined by the transcript-API collaborator:
`success` is a formatted transcript, `noTranscript` is the
`if not transcript` early return, `disabled` and `unavailable` are the
`TranscriptsDisabled` / `VideoUnavailable` exceptions (permanent), and
`transient` is any other exception. -/
inductive TranscriptFetchOutcome where
  | success (text : String)
  | noTranscript
  | disabled
  | unavailable
  | transient
deriving DecidableEq, Repr

/-- The retry loop of `get_video_transcript`, driven by the outcome of each
attempt: returns the result, the number of attempts actually made, and the
list of backoff sleeps (in milliseconds) taken between attempts.  The
source sleeps a constant `time.sleep(1)` before every retry (line 125) and
additionally a fixed `time.sleep(0.15)` rate-limit delay at the start of
every attempt (line 93, not tracked here).  Permanent outcomes
(`disabled`, `unavailable`) and the graceful `noTranscript` return
immediately; only `transient` retries, and the final transient attempt
returns `None` without sleeping again. -/
def transcriptLoop (outcome : Nat → TranscriptFetchOutcome) :
    Nat → Nat → Option String × Nat × List Nat
  | 0, _ => (none, 0, [])
  | remaining + 1, attempt =>
    match outcome attempt with
    | .success t => (some t, 1, [])
    | .noTranscript => (none, 1, [])
    | .disabled => (none, 1, [])
    | .unavailable => (none, 1, [])
    | .transient =>
      if remaining = 0 then (none, 1, [])
      else
        let rest := transcriptLoop outcome remaining (attempt + 1)
        (rest.1, rest.2.1 + 1, 1000 :: rest.2.2)

/-- Mirrors `get_video_transcript` (lines 91-125): `for attempt in
range(self.max_retries)` starting at attempt 0. -/
def get_video_transcript (outcome : Nat → TranscriptFetchOutcome)
    (max_retries : Nat) : Option String × Nat × List Nat :=
  transcriptLoop outcome max_retries 0

/-- The stub of the spec scenario: the transcript API fails transiently on
the first two attempts and succeeds on the third. -/
def failTwiceStub : Nat → TranscriptFetchOutcome :=
  fun k => if k < 2 then .transient else .success "text"

/- ===================== Definitions: youtube item processing ===================== -/

/-- The snippet fields `search_videos` reads from one search result item. -/
structure Snippet where
  title : Option String
  channelTitle : Option String
  publishedAt : Option String
deriving DecidableEq, Repr

/-- What the transcript-listing collaborator does for one video inside
`search_videos` (lines 181-225): the listing call raises (`listError`),
the listing is empty (`listEmpty`), or transcripts exist, in which case
fetching the English transcript and then any fallback transcript each
either yields text or fails. -/
inductive TranscriptListing where
  | listError (msg : String)
  | listEmpty
  | listAvailable (english : Option String) (fallback : Option String)
deriving DecidableEq, Repr

/-- One entry of the `search_response` items list as read by
`search_videos`, together with the behaviour of the transcript collaborator
for that video. -/
structure SearchItem where
  videoId : Option String
  snippet : Option Snippet
  listing : TranscriptListing
deriving DecidableEq, Repr

/-- The transcript portion of the per-item body of `search_videos`
(lines 166-237): computes the `has_transcript` flag, the fetched
transcript (if any) and the preview string exactly as the nested
try/except blocks do.  A listing failure or an empty listing leaves the
initial `"[No transcript available]"` preview and a `False` flag; an
available listing sets the flag and fetches text only when
`include_full_transcript or format == 'raw'`. -/
def itemTranscript (listing : TranscriptListing)
    (include_full_transcript : Bool) (format : String) :
    Bool × Option String × String :=
  match listing with
  | .listError _ => (false, none, "[No transcript available]")
  | .listEmpty => (false, none, "[No transcript available]")
  | .listAvailable english fallback =>
    if include_full_transcript || format = "raw" then
      match english with
      | some t => (true, some t, truncate500 t)
      | none =>
        match fallback with
        | some t => (true, some t, truncate500 t)
        | none => (true, none, "[Transcript available but could not be fetched]")
    else (true, none, "[Transcript available]")

/-- The per-item body of the loop in `search_videos` (lines 155-257) up to
formatting: an item without a video id or snippet is skipped (`continue`),
every other item yields a `YouTubeVideo`, whatever the transcript
collaborator did.  `description` is the value obtained from the
`get_video_details` collaborator (which itself never raises). -/
def process_item (item : SearchItem) (include_full_transcript : Bool)
    (format : String) (description : String) : Option YouTubeVideo :=
  match item.videoId, item.snippet with
  | some vid, some sn =>
    let tr := itemTranscript item.listing include_full_transcript format
    some
      { video_id := vid
        title := sn.title.getD "No Title"
        url := "https://www.youtube.com/watch?v=" ++ vid
        channel := sn.channelTitle.getD "Unknown Channel"
        published_at := sn.publishedAt.getD ""
        description := description
        has_transcript := tr.1
        transcript_preview := some tr.2.2
        full_transcript :=
          if (include_full_transcript || format = "raw") && optTruthy tr.2.1 then
            tr.2.1
          else none }
  | _, _ => none

/-- A concrete video whose title contains a character that is structurally
significant in XML, and whose `published_at` timestamp is set. -/
def exampleVideo : YouTubeVideo :=
  { video_id := "v1"
    title := "a<b"
    url := "https://www.youtube.com/watch?v=v1"
    channel := "c"
    published_at := "2024-01-01T00:00:00Z"
    description := "d"
    has_transcript := false
    transcript_preview := some "[No transcript available]"
    full_transcript := none }

/- ===================== Definitions: concrete stubs for examples ===================== -/

/-- A fetch stub for the scheduler: candidate `0` always fails, every other
candidate succeeds with itself. -/
def failZeroFetch : Nat → Option Nat :=
  fun n => if n = 0 then none else some n

/-- A transcript-API stub that always raises `TranscriptsDisabled`. -/
def disabledStub : Nat → TranscriptFetchOutcome := fun _ => .disabled

/-- A concrete search item whose transcript listing raises. -/
def exampleErrorItem : SearchItem :=
  { videoId := some "v1"
    snippet := some { title := some "T", channelTitle := some "C", publishedAt := some "P" }
    listing := .listError "boom" }

/-- The record `search_videos` builds for `exampleErrorItem`. -/
def exampleErrorVideo : YouTubeVideo :=
  { video_id := "v1"
    title := "T"
    url := "https://www.youtube.com/watch?v=v1"
    channel := "C"
    published_at := "P"
    description := "d"
    has_transcript := false
    transcript_preview := some "[No transcript available]"
    full_transcript := none }

/- ===================== Helper lemmas: stable descending sort ===================== -/

theorem insertScoreDesc_perm (x : RedditComment) (l : List RedditComment) :
    List.Perm (insertScoreDesc x l) (x :: l) := by
  induction l with
  | nil => simp [insertScoreDesc]
  | cons y ys ih =>
    by_cases h : x.score < y.score
    · simp only [insertScoreDesc, if_pos h]
      exact (ih.cons y).trans (List.Perm.swap x y ys)
    · simp [insertScoreDesc, if_neg h]

theorem sortScoreDesc_perm (l : List RedditComment) :
    List.Perm (sortScoreDesc l) l := by
  induction l with
  | nil => simp [sortScoreDesc]
  | cons x xs ih =>
    exact (insertScoreDesc_perm x (sortScoreDesc xs)).trans (ih.cons x)

theorem mem_insertScoreDesc {a x : RedditComment} {l : List RedditComment} :
    a ∈ insertScoreDesc x l ↔ a = x ∨ a ∈ l := by
  rw [(insertScoreDesc_perm x l).mem_iff]
  simp

theorem insertScoreDesc_pairwise (x : RedditComment) (l : List RedditComment)
    (h : l.Pairwise (fun a b => b.score ≤ a.score)) :
    (insertScoreDesc x l).Pairwise (fun a b => b.score ≤ a.score) := by
  induction l with
  | nil => simp [insertScoreDesc]
  | cons y ys ih =>
    rcases List.pairwise_cons.mp h with ⟨hy, hys⟩
    by_cases hxy : x.score < y.score
    · simp only [insertScoreDesc, if_pos hxy]
      refine List.pairwise_cons.mpr ⟨?_, ih hys⟩
      intro a ha
      rcases mem_insertScoreDesc.mp ha with rfl | ha
      · exact le_of_lt hxy
      · exact hy a ha
    · simp only [insertScoreDesc, if_neg hxy]
      refine List.pairwise_cons.mpr ⟨?_, h⟩
      intro a ha
      rcases List.mem_cons.mp ha with rfl | ha
      · exact le_of_not_lt hxy
      · exact le_trans (hy a ha) (le_of_not_lt hxy)

theorem sortScoreDesc_pairwise (l : List RedditComment) :
    (sortScoreDesc l).Pairwise (fun a b => b.score ≤ a.score) := by
  induction l with
  | nil => simp [sortScoreDesc]
  | cons x xs ih => exact insertScoreDesc_pairwise x (sortScoreDesc xs) ih

theorem insertScoreDesc_filter_fibre (x : RedditComment)
    (l : List RedditComment) (s : Int) :
    (insertScoreDesc x l).filter (fun c => c.score = s) =
      if x.score = s then x :: l.filter (fun c => c.score = s)
      else l.filter (fun c => c.score = s) := by
  induction l with
  | nil =>
    by_cases h : x.score = s <;> simp [insertScoreDesc, List.filter, h]
  | cons y ys ih =>
    by_cases hxy : x.score < y.score
    · simp only [insertScoreDesc, if_pos hxy]
      by_cases hx : x.score = s
      · have hy : ¬ (y.score = s) := by
          intro hy
          rw [hx] at hxy
          rw [hy] at hxy
          exact lt_irrefl s hxy
        simp [List.filter_cons, hx, hy, ih]
      · by_cases hy : y.score = s <;> simp [List.filter_cons, hx, hy, ih]
    · simp only [insertScoreDesc, if_neg hxy]
      by_cases hx : x.score = s <;>
        by_cases hy : y.score = s <;>
          simp [List.filter_cons, hx, hy]

theorem sortScoreDesc_filter_fibre (l : List RedditComment) (s : Int) :
    (sortScoreDesc l).filter (fun c => c.score = s) =
      l.filter (fun c => c.score = s) := by
  induction l with
  | nil => simp [sortScoreDesc]
  | cons x xs ih =>
    rw [sortScoreDesc, insertScoreDesc_filter_fibre]
    by_cases h : x.score = s <;> simp [List.filter_cons, h, ih]

theorem sorted_take_drop_dominance {l : List RedditComment} {n : Nat}
    (h : l.Pairwise (fun a b => b.score ≤ a.score)) :
    ∀ x ∈ l.take n, ∀ y ∈ l.drop n, y.score ≤ x.score := by
  have hsplit : l.take n ++ l.drop n = l := List.take_append_drop n l
  rw [← hsplit] at h
  exact (List.pairwise_append.mp h).2.2

/- ===================== Helper lemmas: search loop ===================== -/

theorem search_loop_spec (fetchOne : α → Option β) (target : Nat)
    (cands : List α) :
    ∀ acc : List β, acc.length < target →
      search_loop fetchOne target cands acc =
        acc ++ (cands.filterMap fetchOne).take (target - acc.length) := by
  induction cands with
  | nil => intro acc _; simp [search_loop]
  | cons c cs ih =>
    intro acc h
    cases hc : fetchOne c with
    | none =>
      rw [search_loop, hc, ih acc h]
      simp [List.filterMap_cons, hc]
    | some p =>
      rw [search_loop, hc]
      simp only []
      by_cases ht : target ≤ (acc ++ [p]).length
      · have hlen : target - acc.length = 1 := by
          simp at ht; omega
        rw [if_pos ht]
        simp [List.filterMap_cons, hc, hlen]
      · have h2 : (acc ++ [p]).length < target := lt_of_not_le ht
        rw [if_neg ht, ih _ h2]
        have hlen : target - acc.length = (target - (acc ++ [p]).length) + 1 := by
          simp at h2 ⊢; omega
        simp [List.filterMap_cons, hc, hlen, List.take_succ_cons]

/- ===================== Helper lemmas: URL resolution ===================== -/

theorem stripLit_append (p rest : List Char) :
    stripLit p (p ++ rest) = some rest := by
  induction p with
  | nil => rfl
  | cons c cs ih => simp [stripLit, ih]

theorem stripLit_eq_append {p cs r : List Char} (h : stripLit p cs = some r) :
    cs = p ++ r := by
  induction p generalizing cs with
  | nil =>
    have : cs = r := by simpa [stripLit] using h
    simpa using this
  | cons a ps ih =>
    cases cs with
    | nil => simp [stripLit] at h
    | cons c cs' =>
      by_cases hac : a = c
      · subst hac
        rw [stripLit, if_pos rfl] at h
        simpa using ih h
      · rw [stripLit, if_neg hac] at h
        exact absurd h (by simp)

theorem stripLit_nonword {p cs : List Char}
    (hp : ∃ c ∈ p, isWordChar c = false) (hcs : ∀ c ∈ cs, isWordChar c = true) :
    stripLit p cs = none := by
  induction p generalizing cs with
  | nil => rcases hp with ⟨c, hc, _⟩; exact absurd hc (by simp)
  | cons a ps ih =>
    cases cs with
    | nil => rfl
    | cons c cs' =>
      by_cases hac : a = c
      · subst hac
        rw [stripLit, if_pos rfl]
        rcases hp with ⟨b, hb, hbw⟩
        rcases List.mem_cons.mp hb with rfl | hb
        · exact absurd (hcs b (by simp)) (by simp [hbw])
        · exact ih ⟨b, hb, hbw⟩ (fun x hx => hcs x (by simp [hx]))
      · rw [stripLit, if_neg hac]

theorem takeWhile_stop {p : α → Bool} {w : List α} (c : α) (rest : List α)
    (hw : ∀ x ∈ w, p x = true) (hc : p c = false) :
    (w ++ c :: rest).takeWhile p = w ∧ (w ++ c :: rest).dropWhile p = c :: rest := by
  induction w with
  | nil => simp [List.takeWhile_cons, List.dropWhile_cons, hc]
  | cons a as ih =>
    have ha : p a = true := hw a (by simp)
    have hih := ih (fun x hx => hw x (by simp [hx]))
    simp [List.takeWhile_cons, List.dropWhile_cons, ha, hih.1, hih.2]

theorem takeWhile_all {p : α → Bool} {w : List α} (hw : ∀ x ∈ w, p x = true) :
    w.takeWhile p = w := by
  induction w with
  | nil => rfl
  | cons a as ih =>
    simp [List.takeWhile_cons, hw a (by simp), ih (fun x hx => hw x (by simp [hx]))]

theorem searchComments_skip {c : Char} {cs : List Char}
    (h : stripLit "reddit.com/r/".data (c :: cs) = none) :
    searchComments (c :: cs) = searchComments cs := by
  simp [searchComments, matchCommentsAt, h]

theorem searchShort_skip {c : Char} {cs : List Char}
    (h : stripLit "redd.it/".data (c :: cs) = none) :
    searchShort (c :: cs) = searchShort cs := by
  simp [searchShort, matchShortAt, h]

theorem searchComments_all_word {cs : List Char}
    (h : ∀ c ∈ cs, isWordChar c = true) : searchComments cs = none := by
  induction cs with
  | nil => rfl
  | cons c cs' ih =>
    rw [searchComments_skip
      (stripLit_nonword ⟨'.', by decide, by decide⟩ h)]
    exact ih (fun x hx => h x (by simp [hx]))

theorem searchShort_all_word {cs : List Char}
    (h : ∀ c ∈ cs, isWordChar c = true) : searchShort cs = none := by
  induction cs with
  | nil => rfl
  | cons c cs' ih =>
    rw [searchShort_skip
      (stripLit_nonword ⟨'.', by decide, by decide⟩ h)]
    exact ih (fun x hx => h x (by simp [hx]))

theorem string_mk_data (s : String) : String.mk s.data = s := rfl

theorem searchComments_hit {c : Char} {cs w : List Char}
    (h : matchCommentsAt (c :: cs) = some w) :
    searchComments (c :: cs) = some w := by
  simp [searchComments, h]

theorem searchShort_hit {c : Char} {cs w : List Char}
    (h : matchShortAt (c :: cs) = some w) :
    searchShort (c :: cs) = some w := by
  simp [searchShort, h]

theorem matchCommentsAt_of_shape (sub rest2 : List Char)
    (hsub1 : sub ≠ []) (hsub2 : ∀ c ∈ sub, isWordChar c = true)
    (pid : List Char) (slug : List Char)
    (hpid1 : pid ≠ []) (hpid2 : ∀ c ∈ pid, isWordChar c = true)
    (hrest2 : rest2 = pid ++ '/' :: slug) :
    matchCommentsAt ("reddit.com/r/".data ++ (sub ++ ("/comments/".data ++ rest2)))
      = some pid := by
  subst hrest2
  rw [matchCommentsAt, stripLit_append]
  dsimp only
  have harg : sub ++ ("/comments/".data ++ (pid ++ '/' :: slug)) =
      sub ++ '/' :: ("comments/".data ++ (pid ++ '/' :: slug)) := rfl
  rw [harg]
  have hstop := takeWhile_stop (p := isWordChar) '/'
    ("comments/".data ++ (pid ++ '/' :: slug)) hsub2 (by decide)
  rw [hstop.1, hstop.2, if_neg hsub1]
  have harg2 : ('/' : Char) :: ("comments/".data ++ (pid ++ '/' :: slug)) =
      "/comments/".data ++ (pid ++ '/' :: slug) := rfl
  rw [harg2, stripLit_append]
  dsimp only
  have hstop2 := takeWhile_stop (p := isWordChar) '/' slug hpid2 (by decide)
  rw [hstop2.1, if_neg hpid1]

theorem canonicalPostUrl_data (sub pid slug : String) :
    (canonicalPostUrl sub pid slug).data =
      'h' :: 't' :: 't' :: 'p' :: 's' :: ':' :: '/' :: '/' ::
        ("reddit.com/r/".data ++ (sub.data ++ ("/comments/".data
          ++ (pid.data ++ '/' :: slug.data)))) := by
  have h1 : "https://reddit.com/r/".data =
      'h' :: 't' :: 't' :: 'p' :: 's' :: ':' :: '/' :: '/' :: "reddit.com/r/".data := rfl
  have h2 : "/".data = ['/'] := rfl
  simp [canonicalPostUrl, String.data_append, h1, h2]

theorem canonicalPostUrl_extract (sub pid slug : String)
    (hsub1 : sub.data ≠ []) (hsub2 : ∀ c ∈ sub.data, isWordChar c = true)
    (hpid1 : pid.data ≠ []) (hpid2 : ∀ c ∈ pid.data, isWordChar c = true) :
    extract_post_id (canonicalPostUrl sub pid slug) = some pid := by
  have hm := matchCommentsAt_of_shape sub.data _ hsub1 hsub2 pid.data slug.data
    hpid1 hpid2 rfl
  rw [extract_post_id, canonicalPostUrl_data]
  rw [searchComments_skip (by simp +decide [stripLit])]
  rw [searchComments_skip (by simp +decide [stripLit])]
  rw [searchComments_skip (by simp +decide [stripLit])]
  rw [searchComments_skip (by simp +decide [stripLit])]
  rw [searchComments_skip (by simp +decide [stripLit])]
  rw [searchComments_skip (by simp +decide [stripLit])]
  rw [searchComments_skip (by simp +decide [stripLit])]
  rw [searchComments_skip (by simp +decide [stripLit])]
  have e : "reddit.com/r/".data ++ (sub.data ++ ("/comments/".data
      ++ (pid.data ++ '/' :: slug.data))) =
      'r' :: ("eddit.com/r/".data ++ (sub.data ++ ("/comments/".data
        ++ (pid.data ++ '/' :: slug.data)))) := rfl
  rw [e] at hm ⊢
  rw [searchComments_hit hm]

theorem shortPostUrl_searchComments (pid : String)
    (hpid2 : ∀ c ∈ pid.data, isWordChar c = true) :
    searchComments (shortPostUrl pid).data = none := by
  have e : (shortPostUrl pid).data =
      'h' :: 't' :: 't' :: 'p' :: 's' :: ':' :: '/' :: '/' ::
        'r' :: 'e' :: 'd' :: 'd' :: '.' :: 'i' :: 't' :: '/' :: pid.data := rfl
  rw [e]
  rw [searchComments_skip (by simp +decide [stripLit])]
  rw [searchComments_skip (by simp +decide [stripLit])]
  rw [searchComments_skip (by simp +decide [stripLit])]
  rw [searchComments_skip (by simp +decide [stripLit])]
  rw [searchComments_skip (by simp +decide [stripLit])]
  rw [searchComments_skip (by simp +decide [stripLit])]
  rw [searchComments_skip (by simp +decide [stripLit])]
  rw [searchComments_skip (by simp +decide [stripLit])]
  rw [searchComments_skip (by simp +decide [stripLit])]
  rw [searchComments_skip (by simp +decide [stripLit])]
  rw [searchComments_skip (by simp +decide [stripLit])]
  rw [searchComments_skip (by simp +decide [stripLit])]
  rw [searchComments_skip (by simp +decide [stripLit])]
  rw [searchComments_skip (by simp +decide [stripLit])]
  rw [searchComments_skip (by simp +decide [stripLit])]
  rw [searchComments_skip (by simp +decide [stripLit])]
  exact searchComments_all_word hpid2

theorem shortPostUrl_extract (pid : String)
    (hpid1 : pid.data ≠ []) (hpid2 : ∀ c ∈ pid.data, isWordChar c = true) :
    extract_post_id (shortPostUrl pid) = some pid := by
  rw [extract_post_id, shortPostUrl_searchComments pid hpid2]
  have e : (shortPostUrl pid).data =
      'h' :: 't' :: 't' :: 'p' :: 's' :: ':' :: '/' :: '/' ::
        ("redd.it/".data ++ pid.data) := rfl
  rw [e]
  rw [searchShort_skip (by simp +decide [stripLit])]
  rw [searchShort_skip (by simp +decide [stripLit])]
  rw [searchShort_skip (by simp +decide [stripLit])]
  rw [searchShort_skip (by simp +decide [stripLit])]
  rw [searchShort_skip (by simp +decide [stripLit])]
  rw [searchShort_skip (by simp +decide [stripLit])]
  rw [searchShort_skip (by simp +decide [stripLit])]
  rw [searchShort_skip (by simp +decide [stripLit])]
  have hm : matchShortAt ("redd.it/".data ++ pid.data) = some pid.data := by
    rw [matchShortAt, stripLit_append]
    dsimp only
    rw [takeWhile_all hpid2, if_neg hpid1]
  have e2 : "redd.it/".data ++ pid.data =
      'r' :: ("edd.it/".data ++ pid.data) := rfl
  rw [e2] at hm ⊢
  rw [searchShort_hit hm]

theorem matchCommentsAt_word {cs w : List Char}
    (h : matchCommentsAt cs = some w) :
    w ≠ [] ∧ ∀ c ∈ w, isWordChar c = true := by
  unfold matchCommentsAt at h
  cases h1 : stripLit "reddit.com/r/".data cs with
  | none => rw [h1] at h; exact absurd h (by simp)
  | some rest =>
    rw [h1] at h
    dsimp only at h
    by_cases h2 : rest.takeWhile isWordChar = []
    · rw [if_pos h2] at h; exact absurd h (by simp)
    · rw [if_neg h2] at h
      cases h3 : stripLit "/comments/".data (rest.dropWhile isWordChar) with
      | none => rw [h3] at h; exact absurd h (by simp)
      | some rest2 =>
        rw [h3] at h
        dsimp only at h
        by_cases h4 : rest2.takeWhile isWordChar = []
        · rw [if_pos h4] at h; exact absurd h (by simp)
        · rw [if_neg h4] at h
          have hw : rest2.takeWhile isWordChar = w := by simpa using h
          subst hw
          exact ⟨h4, fun c hc => List.mem_takeWhile_imp hc⟩

theorem matchShortAt_word {cs w : List Char}
    (h : matchShortAt cs = some w) :
    w ≠ [] ∧ ∀ c ∈ w, isWordChar c = true := by
  unfold matchShortAt at h
  cases h1 : stripLit "redd.it/".data cs with
  | none => rw [h1] at h; exact absurd h (by simp)
  | some rest =>
    rw [h1] at h
    dsimp only at h
    by_cases h2 : rest.takeWhile isWordChar = []
    · rw [if_pos h2] at h; exact absurd h (by simp)
    · rw [if_neg h2] at h
      have hw : rest.takeWhile isWordChar = w := by simpa using h
      subst hw
      exact ⟨h2, fun c hc => List.mem_takeWhile_imp hc⟩

theorem searchComments_word {cs w : List Char}
    (h : searchComments cs = some w) :
    w ≠ [] ∧ ∀ c ∈ w, isWordChar c = true := by
  induction cs with
  | nil => exact absurd h (by simp [searchComments])
  | cons c cs' ih =>
    rw [searchComments] at h
    cases hm : matchCommentsAt (c :: cs') with
    | some w2 =>
      rw [hm] at h
      have : w2 = w := by simpa using h
      subst this
      exact matchCommentsAt_word hm
    | none =>
      rw [hm] at h
      exact ih h

theorem searchShort_word {cs w : List Char}
    (h : searchShort cs = some w) :
    w ≠ [] ∧ ∀ c ∈ w, isWordChar c = true := by
  induction cs with
  | nil => exact absurd h (by simp [searchShort])
  | cons c cs' ih =>
    rw [searchShort] at h
    cases hm : matchShortAt (c :: cs') with
    | some w2 =>
      rw [hm] at h
      have : w2 = w := by simpa using h
      subst this
      exact matchShortAt_word hm
    | none =>
      rw [hm] at h
      exact ih h

theorem extract_post_id_word {url : String} {pid : String}
    (h : extract_post_id url = some pid) :
    pid.data ≠ [] ∧ ∀ c ∈ pid.data, isWordChar c = true := by
  unfold extract_post_id at h
  cases h1 : searchComments url.data with
  | some w =>
    rw [h1] at h
    have : String.mk w = pid := by simpa using h
    subst this
    exact searchComments_word h1
  | none =>
    rw [h1] at h
    dsimp only at h
    cases h2 : searchShort url.data with
    | some w =>
      rw [h2] at h
      have : String.mk w = pid := by simpa using h
      subst this
      exact searchShort_word h2
    | none => rw [h2] at h; exact absurd h (by simp)

theorem containsSeq_here {pat cs rest : List Char}
    (h : stripLit pat cs = some rest) : containsSeq pat cs = true := by
  cases cs with
  | nil => simp [containsSeq, h]
  | cons c cs' => simp [containsSeq, h]

theorem containsSeq_of_stripLit_split {pre pat : List Char} {cs rest : List Char}
    (h : stripLit (pre ++ pat) cs = some rest) : containsSeq pre cs = true := by
  have := stripLit_eq_append h
  rw [List.append_assoc] at this
  subst this
  exact containsSeq_here (stripLit_append pre (pat ++ rest))

theorem searchComments_marker {cs w : List Char}
    (h : searchComments cs = some w) :
    containsSeq "reddit.com".data cs = true := by
  induction cs with
  | nil => exact absurd h (by simp [searchComments])
  | cons c cs' ih =>
    rw [searchComments] at h
    cases hm : matchCommentsAt (c :: cs') with
    | some w2 =>
      unfold matchCommentsAt at hm
      cases h1 : stripLit "reddit.com/r/".data (c :: cs') with
      | none => rw [h1] at hm; exact absurd hm (by simp)
      | some rest =>
        have hsplit : ("reddit.com/r/".data : List Char) =
            "reddit.com".data ++ "/r/".data := rfl
        rw [hsplit] at h1
        exact containsSeq_of_stripLit_split h1
    | none =>
      rw [hm] at h
      have := ih h
      simp [containsSeq, this]

theorem searchShort_marker {cs w : List Char}
    (h : searchShort cs = some w) :
    containsSeq "redd.it".data cs = true := by
  induction cs with
  | nil => exact absurd h (by simp [searchShort])
  | cons c cs' ih =>
    rw [searchShort] at h
    cases hm : matchShortAt (c :: cs') with
    | some w2 =>
      unfold matchShortAt at hm
      cases h1 : stripLit "redd.it/".data (c :: cs') with
      | none => rw [h1] at hm; exact absurd hm (by simp)
      | some rest =>
        have hsplit : ("redd.it/".data : List Char) =
            "redd.it".data ++ "/".data := rfl
        rw [hsplit] at h1
        exact containsSeq_of_stripLit_split h1
    | none =>
      rw [hm] at h
      have := ih h
      simp [containsSeq, this]

/- ===================== Helper lemmas: transcript retry loop ===================== -/

theorem transcriptLoop_attempts_le (outcome : Nat → TranscriptFetchOutcome) :
    ∀ remaining attempt, (transcriptLoop outcome remaining attempt).2.1 ≤ remaining := by
  intro remaining
  induction remaining with
  | zero => intro attempt; simp [transcriptLoop]
  | succ m ih =>
    intro attempt
    cases h : outcome attempt with
    | success t => simp [transcriptLoop, h]
    | noTranscript => simp [transcriptLoop, h]
    | disabled => simp [transcriptLoop, h]
    | unavailable => simp [transcriptLoop, h]
    | transient =>
      by_cases hm : m = 0
      · simp [transcriptLoop, h, hm]
      · have := ih (attempt + 1)
        simp only [transcriptLoop, h, if_neg hm]
        omega

theorem transcriptLoop_delays_const (outcome : Nat → TranscriptFetchOutcome) :
    ∀ remaining attempt d, d ∈ (transcriptLoop outcome remaining attempt).2.2 →
      d = 1000 := by
  intro remaining
  induction remaining with
  | zero => intro attempt d hd; simp [transcriptLoop] at hd
  | succ m ih =>
    intro attempt d hd
    cases h : outcome attempt with
    | success t => simp [transcriptLoop, h] at hd
    | noTranscript => simp [transcriptLoop, h] at hd
    | disabled => simp [transcriptLoop, h] at hd
    | unavailable => simp [transcriptLoop, h] at hd
    | transient =>
      by_cases hm : m = 0
      · simp [transcriptLoop, h, hm] at hd
      · simp only [transcriptLoop, h, if_neg hm] at hd
        rcases List.mem_cons.mp hd with h2 | h2
        · exact h2
        · exact ih (attempt + 1) d h2

/- ===================== Claim theorems ===================== -/

/-- C1: for every available comment set and every comment limit, the
comments attached to a post are the truncation-to-limit of the full
available set sorted by score descending (so the kept scores dominate
every dropped score, and ties keep discovery order — each equal-score
fibre of the sorted set is exactly the fibre of the unsorted feed); in
particular the feed with scores [1, 9, 2, 8, 3] and limit 3 yields
scores [9, 8, 3]. -/
theorem subitems_sorted_over_full_set_then_truncated :
    (∀ (raws : List RawComment) (limit : Nat),
      get_post_comments raws true limit =
        (sortScoreDesc (availableComments raws)).take limit
      ∧ (get_post_comments raws true limit).Pairwise (fun a b => b.score ≤ a.score)
      ∧ (get_post_comments raws true limit).length =
          min limit (availableComments raws).length
      ∧ (∀ x ∈ get_post_comments raws true limit,
          ∀ y ∈ (sortScoreDesc (availableComments raws)).drop limit,
            y.score ≤ x.score)
      ∧ (∀ s : Int,
          (sortScoreDesc (availableComments raws)).filter (fun c => c.score = s) =
            (availableComments raws).filter (fun c => c.score = s)))
    ∧ (get_post_comments exampleRaws true 3).map (fun c => c.score) = [9, 8, 3] := by
  constructor
  · intro raws limit
    have heq : get_post_comments raws true limit =
        (sortScoreDesc (availableComments raws)).take limit := rfl
    refine ⟨heq, ?_, ?_, ?_, ?_⟩
    · rw [heq]
      exact (sortScoreDesc_pairwise _).sublist (List.take_sublist limit _)
    · rw [heq, List.length_take, (sortScoreDesc_perm (availableComments raws)).length_eq]
    · rw [heq]
      exact sorted_take_drop_dominance (sortScoreDesc_pairwise _)
    · intro s
      exact sortScoreDesc_filter_fibre _ s
  · decide

/-- Witness for C1 at the concrete feed: the example evaluates to
[9, 8, 3], and the dominance clause applied to the kept comment of score 9
and the dropped comment of score 2 gives 2 ≤ 9. -/
theorem subitems_sorted_over_full_set_then_truncated_witness :
    (get_post_comments exampleRaws true 3).map (fun c => c.score) = [9, 8, 3]
    ∧ ({ author := "u3", score := 2, body := "b3", created_utc := "t3"} : RedditComment).score ≤
        ({ author := "u2", score := 9, body := "b2", created_utc := "t2"} : RedditComment).score := by
  refine ⟨subitems_sorted_over_full_set_then_truncated.2, ?_⟩
  exact (subitems_sorted_over_full_set_then_truncated.1 exampleRaws 3).2.2.2.1
    { author := "u2", score := 9, body := "b2", created_utc := "t2"} (by decide)
    { author := "u3", score := 2, body := "b3", created_utc := "t3"} (by decide)

/-- C10: a comment included in a constructed post always originates from a
non-stickied raw comment, whatever its score, because the stickied filter
runs before the sort and the truncation; in the concrete feed the stickied
comment with the top score 100 is absent and the result keeps scores
[7, 4]. -/
theorem stickied_comments_never_included :
    (∀ (raws : List RawComment) (include_comments : Bool) (limit : Nat),
      ∀ c ∈ get_post_comments raws include_comments limit,
        ∃ r ∈ raws, r.stickied = false ∧ c = mkRedditComment r)
    ∧ (get_post_comments exampleRawsStickied true 2).map (fun c => c.score) = [7, 4] := by
  constructor
  · intro raws include_comments limit c hc
    cases include_comments with
    | false => exact absurd hc (by simp [get_post_comments])
    | true =>
      have hc2 : c ∈ sortScoreDesc (availableComments raws) := by
        have : get_post_comments raws true limit =
            (sortScoreDesc (availableComments raws)).take limit := rfl
        rw [this] at hc
        exact List.mem_of_mem_take hc
      have hc3 : c ∈ availableComments raws :=
        (sortScoreDesc_perm (availableComments raws)).mem_iff.mp hc2
      rcases List.mem_map.mp hc3 with ⟨r, hr, hrc⟩
      rcases List.mem_filter.mp hr with ⟨hr1, hr2⟩
      exact ⟨r, hr1, by simpa using hr2, hrc.symm⟩
  · decide

/-- Witness for C10: applying the origin clause to the score-7 comment of
the concrete feed exhibits its non-stickied raw source. -/
theorem stickied_comments_never_included_witness :
    ∃ r ∈ exampleRawsStickied, r.stickied = false ∧
      ({ author := "u1", score := 7, body := "c1", created_utc := "t1"} : RedditComment)
        = mkRedditComment r :=
  stickied_comments_never_included.1 exampleRawsStickied true 2
    { author := "u1", score := 7, body := "c1", created_utc := "t1"} (by decide)

/-- C2: the search loop collects, in candidate order, exactly the first
`target` successful fetches; a candidate whose fetch always fails is
skipped without aborting the run (removing it from the candidate sequence
does not change the outcome), the loop keeps drawing candidates until the
target is reached or the sequence is exhausted, and the final batch size is
min(target, number of succeeding candidates) — exhaustion just yields a
shorter (possibly empty) batch, never an error. -/
theorem scheduler_skips_failures_and_reaches_min_target
    {α β : Type} :
    ∀ (fetchOne : α → Option β) (target : Nat) (cands pre post : List α)
      (c0 : α), 1 ≤ target → fetchOne c0 = none →
      search_loop fetchOne target cands [] =
        (cands.filterMap fetchOne).take target
      ∧ (search_loop fetchOne target cands []).length =
          min target (cands.filterMap fetchOne).length
      ∧ search_loop fetchOne target (pre ++ c0 :: post) [] =
          search_loop fetchOne target (pre ++ post) [] := by
  intro fetchOne target cands pre post c0 htarget hc0
  have hspec : ∀ l : List α, search_loop fetchOne target l [] =
      (l.filterMap fetchOne).take target := by
    intro l
    have := search_loop_spec fetchOne target l [] (by simpa using htarget)
    simpa using this
  refine ⟨hspec cands, ?_, ?_⟩
  · rw [hspec cands, List.length_take]
  · rw [hspec (pre ++ c0 :: post), hspec (pre ++ post)]
    have : (pre ++ c0 :: post).filterMap fetchOne =
        (pre ++ post).filterMap fetchOne := by
      simp [List.filterMap_append, List.filterMap_cons, hc0]
    rw [this]

/-- Witness for C2 with the concrete stub that fails on candidate 0:
target 2 over candidates [0, 1, 0, 2, 3] yields batch [1, 2], its size is
min 2 3, and deleting a failing candidate does not change the outcome. -/
theorem scheduler_skips_failures_witness :
    search_loop failZeroFetch 2 [0, 1, 0, 2, 3] [] =
      ([0, 1, 0, 2, 3].filterMap failZeroFetch).take 2
    ∧ (search_loop failZeroFetch 2 [0, 1, 0, 2, 3] []).length =
        min 2 ([0, 1, 0, 2, 3].filterMap failZeroFetch).length
    ∧ search_loop failZeroFetch 2 ([1] ++ 0 :: [2, 3]) [] =
        search_loop failZeroFetch 2 ([1] ++ [2, 3]) [] :=
  scheduler_skips_failures_and_reaches_min_target failZeroFetch 2
    [0, 1, 0, 2, 3] [1] [2, 3] 0 (by decide) (by decide)

set_option maxRecDepth 4000

/-- C3 (documents the defect): neither slim-XML formatter escapes
markup-significant characters before embedding free text.  The reddit
formatter embeds a title containing raw < and & verbatim (it even applies
html.unescape, the opposite direction), and the youtube helper named
escape_xml is the identity on every string, so a title a<b reaches the
markup unescaped. -/
theorem slim_xml_embeds_markup_characters_unescaped :
    reddit_format_slim_xml [unsafePost] =
      "<reddit_posts>\n<post>\n<title>1 < 2 & done</title>\n<subreddit>test</subreddit>\n<url>https://reddit.com/r/test/comments/x1/t/</url>\n</post>\n</reddit_posts>"
    ∧ (∀ t : String, escape_xml t = t)
    ∧ yt_format_slim_xml exampleVideo false =
      "<title>a<b</title>\n<channel>c</channel>\n<url>https://www.youtube.com/watch?v=v1</url>\n<published>2024-01-01T00:00:00Z</published>\n<description>\nd\n</description>\n<transcript_preview>\n[No transcript available]\n</transcript_preview>" := by
  refine ⟨by decide, ?_, by decide⟩
  intro t
  by_cases h : t = ""
  · simp [escape_xml, h]
  · simp [escape_xml, h]

/-- C4 counterexample: the fail-twice-then-succeed stub with the default
maximum of 3 attempts does make exactly 3 attempts, but the two backoff
sleeps are the constant pair [1000, 1000] milliseconds — the second delay
is not double the first, refuting exponential backoff with the base delay
doubling per attempt. -/
theorem retry_backoff_constant_not_doubling :
    get_video_transcript failTwiceStub 3 = (some "text", 3, [1000, 1000])
    ∧ ¬ (get_video_transcript failTwiceStub 3).2.2 = [1000, 2 * 1000] := by
  decide

/-- C4 as amended: for every transient failure the fetcher retries up to
the configurable maximum attempt count (default 3), with a constant
1-second sleep between attempts rather than exponential backoff; the stub
that fails twice then succeeds observes exactly 3 attempts with two
backoff delays, each ≥ the previous (because they are all equal). -/
theorem retry_bounded_with_constant_backoff :
    (∀ (outcome : Nat → TranscriptFetchOutcome) (max_retries attempt : Nat),
      (transcriptLoop outcome max_retries attempt).2.1 ≤ max_retries
      ∧ ∀ d ∈ (transcriptLoop outcome max_retries attempt).2.2, d = 1000)
    ∧ get_video_transcript failTwiceStub 3 = (some "text", 3, [1000, 1000])
    ∧ (get_video_transcript failTwiceStub 3).2.2.Chain' (fun a b => a ≤ b) := by
  refine ⟨?_, by decide, ?_⟩
  case refine_2 =>
    have h : (get_video_transcript failTwiceStub 3).2.2 = [1000, 1000] := by decide
    rw [h]
    exact List.chain'_pair.mpr (le_refl 1000)
  intro outcome max_retries attempt
  exact ⟨transcriptLoop_attempts_le outcome max_retries attempt,
    fun d hd => transcriptLoop_delays_const outcome max_retries attempt d hd⟩

/-- Witness for the amended C4: the bound and the constant-delay clause
applied to the concrete stub at 3 attempts. -/
theorem retry_bounded_with_constant_backoff_witness :
    (transcriptLoop failTwiceStub 3 0).2.1 ≤ 3 ∧ (1000 : Nat) = 1000 :=
  ⟨(retry_bounded_with_constant_backoff.1 failTwiceStub 3 0).1,
   (retry_bounded_with_constant_backoff.1 failTwiceStub 3 0).2 1000 (by decide)⟩

/-- C5 counterexample: the youtube search entry point invoked with an
empty query and a desired count of 0 (outside [1, 25]) raises no
configuration error at all — it proceeds to the network part with the
count silently clamped to 1. -/
theorem youtube_accepts_invalid_config :
    youtube_search_videos "" 0 "raw" (fun n => [n]) = Except.ok [1] := rfl

/-- C5 as amended: the reddit search entry point raises a ValueError for
an invalid format string, an empty query, or a count outside [1, 25],
synchronously before any network activity (the error is independent of
what the network part would return); the youtube entry point validates
only the format string, silently clamping its count to [1, 10] and
accepting empty queries. -/
theorem config_validation_reddit_strict_youtube_format_only :
    ∀ (format query : String) (n : Int) (run : Unit → List Nat)
      (runy : Int → List Int),
      (reddit_search format query n run = Except.ok (run ()) ↔
        (validFormat format = true ∧ query ≠ "" ∧ 1 ≤ n ∧ n ≤ 25))
      ∧ ((¬ (validFormat format = true ∧ query ≠ "" ∧ 1 ≤ n ∧ n ≤ 25)) →
          ∃ msg, reddit_search format query n run = Except.error msg
            ∧ ∀ run2 : Unit → List Nat,
                reddit_search format query n run2 = Except.error msg)
      ∧ youtube_search_videos query n format runy =
          (if validFormat format then Except.ok (runy (max 1 (min 10 n)))
           else Except.error
             "format must be \x27raw\x27, \x27slim_json\x27, or \x27slim_xml") := by
  intro format query n run runy
  refine ⟨?_, ?_, ?_⟩
  · by_cases hf : validFormat format
    · by_cases hq : query = ""
      · simp [reddit_search, reddit_search_validate, hf, hq]
      · by_cases hn : (1 ≤ n ∧ n ≤ 25)
        · simp [reddit_search, reddit_search_validate, hf, hq, hn.1, hn.2]
        · have hn2 : ¬ (1 ≤ n && n ≤ 25) = true := by
            simp only [Bool.and_eq_true, decide_eq_true_eq]
            exact fun hc => hn ⟨hc.1, hc.2⟩
          simp only [reddit_search, reddit_search_validate, hf, hq,
            Bool.not_true, Bool.false_eq_true, if_false, if_neg hq, hn2,
            Bool.not_false, if_true]
          constructor
          · intro h; exact absurd h (by simp)
          · intro h; exact absurd h (fun hc => hn ⟨hc.2.2.1, hc.2.2.2⟩)
    · simp [reddit_search, reddit_search_validate, hf]
  · intro hbad
    by_cases hf : validFormat format
    · by_cases hq : query = ""
      · exact ⟨"Search query cannot be empty",
          by simp [reddit_search, reddit_search_validate, hf, hq],
          fun run2 => by simp [reddit_search, reddit_search_validate, hf, hq]⟩
      · have hn : ¬ (1 ≤ n ∧ n ≤ 25) := by
          intro hc; exact hbad ⟨hf, hq, hc.1, hc.2⟩
        have hn2 : ¬ (1 ≤ n && n ≤ 25) = true := by
          simp only [Bool.and_eq_true, decide_eq_true_eq]
          exact fun hc => hn ⟨hc.1, hc.2⟩
        exact ⟨"num_results must be between 1 and 25",
          by simp [reddit_search, reddit_search_validate, hf, hq, hn2],
          fun run2 => by
            simp [reddit_search, reddit_search_validate, hf, hq, hn2]⟩
    · exact ⟨"format must be \x27raw\x27, \x27slim_json\x27, or \x27slim_xml\x27",
        by simp [reddit_search, reddit_search_validate, hf],
        fun run2 => by simp [reddit_search, reddit_search_validate, hf]⟩
  · by_cases hf : validFormat format
    · simp [youtube_search_videos, hf]
    · simp [youtube_search_videos, hf]

/-- Witness for the amended C5 at a concrete invalid configuration: an
unknown format string produces a synchronous ValueError from the reddit
entry point, and the youtube entry point still clamps and proceeds for a
valid format with a bad count. -/
theorem config_validation_witness :
    (∃ msg, reddit_search "bogus" "q" 5 (fun _ => ([] : List Nat)) =
        Except.error msg
      ∧ ∀ run2 : Unit → List Nat,
          reddit_search "bogus" "q" 5 run2 = Except.error msg)
    ∧ youtube_search_videos "q" 99 "raw" (fun n => [n]) =
        (if validFormat "raw" then Except.ok [max 1 (min 10 (99 : Int))]
         else Except.error
           "format must be \x27raw\x27, \x27slim_json\x27, or \x27slim_xml") :=
  ⟨(config_validation_reddit_strict_youtube_format_only "bogus" "q" 5
      (fun _ => []) (fun n => [n])).2.1 (by decide),
   (config_validation_reddit_strict_youtube_format_only "raw" "q" 99
      (fun _ => []) (fun n => [n])).2.2⟩

/-- C6: a permanent transcript absence (transcripts disabled, video
unavailable, or no transcript found) makes the fetcher return immediately
on the first attempt with no retry and no backoff sleep; in the search
loop an item is dropped only when its video id or snippet (the primary
metadata) is missing, and when the transcript listing fails the record is
still produced with has_transcript = false and an empty full_transcript. -/
theorem permanent_absence_no_retry_record_still_produced :
    (∀ (outcome : Nat → TranscriptFetchOutcome) (max_retries : Nat),
      1 ≤ max_retries →
      (outcome 0 = .disabled ∨ outcome 0 = .unavailable
        ∨ outcome 0 = .noTranscript) →
      get_video_transcript outcome max_retries = (none, 1, []))
    ∧ (∀ (item : SearchItem) (include_full_transcript : Bool)
        (format description : String),
        (process_item item include_full_transcript format description = none ↔
          (item.videoId = none ∨ item.snippet = none))
        ∧ (∀ msg, item.listing = .listError msg →
            ∀ v, process_item item include_full_transcript format description
              = some v →
              v.has_transcript = false ∧ v.full_transcript = none)
        ∧ (item.listing = .listEmpty →
            ∀ v, process_item item include_full_transcript format description
              = some v →
              v.has_transcript = false ∧ v.full_transcript = none)) := by
  constructor
  · intro outcome max_retries hmr hout
    cases max_retries with
    | zero => omega
    | succ m =>
      rcases hout with h | h | h <;>
        simp [get_video_transcript, transcriptLoop, h]
  · intro item include_full_transcript format description
    refine ⟨?_, ?_, ?_⟩
    · cases hv : item.videoId with
      | none => simp [process_item, hv]
      | some vid =>
        cases hs : item.snippet with
        | none => simp [process_item, hv, hs]
        | some sn => simp [process_item, hv, hs]
    · intro msg hmsg v hv
      cases hvid : item.videoId with
      | none => rw [process_item, hvid] at hv; exact absurd hv (by simp)
      | some vid =>
        cases hs : item.snippet with
        | none => rw [process_item, hvid, hs] at hv; exact absurd hv (by simp)
        | some sn =>
          rw [process_item, hvid, hs] at hv
          dsimp only at hv
          rw [hmsg] at hv
          obtain rfl := (Option.some.inj hv).symm
          constructor
          · simp [itemTranscript]
          · simp [itemTranscript]
    · intro hmsg v hv
      cases hvid : item.videoId with
      | none => rw [process_item, hvid] at hv; exact absurd hv (by simp)
      | some vid =>
        cases hs : item.snippet with
        | none => rw [process_item, hvid, hs] at hv; exact absurd hv (by simp)
        | some sn =>
          rw [process_item, hvid, hs] at hv
          dsimp only at hv
          rw [hmsg] at hv
          obtain rfl := (Option.some.inj hv).symm
          constructor
          · simp [itemTranscript]
          · simp [itemTranscript]

/-- Witness for C6: the always-disabled stub returns after one attempt
with no sleeps, and the concrete item whose listing raises still produces
a record, with the flag false and no transcript. -/
theorem permanent_absence_witness :
    get_video_transcript disabledStub 3 = (none, 1, [])
    ∧ (process_item exampleErrorItem true "raw" "d" = none ↔
        (exampleErrorItem.videoId = none ∨ exampleErrorItem.snippet = none))
    ∧ exampleErrorVideo.has_transcript = false
    ∧ exampleErrorVideo.full_transcript = none := by
  refine ⟨?_, ?_, ?_⟩
  · exact permanent_absence_no_retry_record_still_produced.1 disabledStub 3
      (by decide) (Or.inl rfl)
  · exact (permanent_absence_no_retry_record_still_produced.2
      exampleErrorItem true "raw" "d").1
  · exact (permanent_absence_no_retry_record_still_produced.2
      exampleErrorItem true "raw" "d").2.1 "boom" rfl exampleErrorVideo (by decide)

/-- C7 counterexample: the youtube reduced-object formatter keeps the
published_at timestamp field (here a concrete ISO timestamp), so the claim
that every formatter variant drops all numeric/engagement/timestamp fields
is false. -/
theorem slim_json_keeps_published_timestamp :
    "published_at" ∈ (yt_format_slim_json exampleVideo false).keys
    ∧ exampleVideo.published_at = "2024-01-01T00:00:00Z" := by
  decide

/-- C7 as amended: the reddit reduced-object formatter emits exactly the
minimal field set {title, subreddit, url, selftext, comment bodies}; the
youtube variant additionally retains published_at, has_transcript and
transcript_preview (plus full_transcript on request); neither variant ever
contains a score or metrics key. -/
theorem reduced_object_fields :
    (∀ post : RedditPost,
      (reddit_format_slim_json post).keys =
        ["title", "subreddit", "url", "selftext", "comments"]
      ∧ "score" ∉ (reddit_format_slim_json post).keys
      ∧ ∀ c ∈ post.comments, (redditCommentJson c).keys = ["body"])
    ∧ (∀ (video : YouTubeVideo) (include_full_transcript : Bool),
        "score" ∉ (yt_format_slim_json video include_full_transcript).keys
        ∧ "metrics" ∉ (yt_format_slim_json video include_full_transcript).keys
        ∧ "num_comments" ∉ (yt_format_slim_json video include_full_transcript).keys
        ∧ "published_at" ∈ (yt_format_slim_json video include_full_transcript).keys) := by
  constructor
  · intro post
    exact ⟨rfl, by simp [reddit_format_slim_json, Json.keys], fun c _ => rfl⟩
  · intro video include_full_transcript
    by_cases h : (include_full_transcript && optTruthy video.full_transcript) = true
    · simp [yt_format_slim_json, Json.keys, h]
    · simp [yt_format_slim_json, Json.keys, h]

/-- Witness for the amended C7 at concrete values: the key list of the
reddit formatter on a one-comment post and the comment-object key list. -/
theorem reduced_object_fields_witness :
    (reddit_format_slim_json
      { title := "t", author := "a", subreddit := "s", score := 3
        num_comments := 1, url := "u", selftext := "b", created_utc := "c"
        comments := [{ author := "a", score := 1, body := "cb", created_utc := "c" }] }).keys
      = ["title", "subreddit", "url", "selftext", "comments"]
    ∧ (redditCommentJson
        { author := "a", score := 1, body := "cb", created_utc := "c" }).keys = ["body"] := by
  refine ⟨(reduced_object_fields.1 _).1, ?_⟩
  exact (reduced_object_fields.1
    { title := "t", author := "a", subreddit := "s", score := 3
      num_comments := 1, url := "u", selftext := "b", created_utc := "c"
      comments := [{ author := "a", score := 1, body := "cb", created_utc := "c" }]
      }).2.2 _ (by decide)

/-- C8 counterexample: the resolver has no blocklist at all — a share-link
URL whose path segment is an ad page (redd.it/ads) still resolves to the
id "ads" instead of None. -/
theorem blocklisted_segment_still_resolves :
    extract_post_id "https://redd.it/ads" = some "ads" := by
  decide

/-- C8 as amended: resolve returns None (not an error) exactly when the
input matches neither known URL shape; in particular any input in which
both platform markers (reddit.com and redd.it) are absent resolves to
None.  There is no blocklist: a URL containing an ad/tracking/settings
path segment that happens to match an id pattern still resolves. -/
theorem resolve_none_without_platform_marker :
    ∀ url : String,
      containsSeq "reddit.com".data url.data = false →
      containsSeq "redd.it".data url.data = false →
      extract_post_id url = none := by
  intro url h1 h2
  cases hc : searchComments url.data with
  | some w =>
    have := searchComments_marker hc
    rw [h1] at this
    exact absurd this (by simp)
  | none =>
    cases hs : searchShort url.data with
    | some w =>
      have := searchShort_marker hs
      rw [h2] at this
      exact absurd this (by simp)
    | none => rw [extract_post_id, hc, hs]

/-- Witness for the amended C8: a URL with no platform marker resolves to
None. -/
theorem resolve_none_without_platform_marker_witness :
    extract_post_id "https://example.com/watch?v=abc" = none :=
  resolve_none_without_platform_marker "https://example.com/watch?v=abc"
    (by decide) (by decide)

/-- C9: for word-character subreddit and post ids, the share-link form and
the long-form canonical link of the same post resolve to the same id, and
resolution is idempotent — resolving the canonical URL reconstructed (as
`__get_post_data` does from the permalink) from any previously resolved id
yields exactly that id again, for every slug. -/
theorem resolve_same_resource_and_idempotent :
    ∀ (sub pid slug : String),
      sub.data ≠ [] → (∀ c ∈ sub.data, isWordChar c = true) →
      pid.data ≠ [] → (∀ c ∈ pid.data, isWordChar c = true) →
      (extract_post_id (shortPostUrl pid) = some pid
        ∧ extract_post_id (canonicalPostUrl sub pid slug) = some pid)
      ∧ (∀ (url : String) (resolved : String),
          extract_post_id url = some resolved →
          ∀ slug2 : String,
            extract_post_id (canonicalPostUrl sub resolved slug2)
              = some resolved) := by
  intro sub pid slug hsub1 hsub2 hpid1 hpid2
  refine ⟨⟨shortPostUrl_extract pid hpid1 hpid2,
    canonicalPostUrl_extract sub pid slug hsub1 hsub2 hpid1 hpid2⟩, ?_⟩
  intro url resolved hres slug2
  have hw := extract_post_id_word hres
  exact canonicalPostUrl_extract sub resolved slug2 hsub1 hsub2 hw.1 hw.2

/-- Witness for C9 at concrete values: both URL forms of post abc123
resolve to abc123, and re-resolving the canonical reconstruction of the
resolved share-link gives abc123 again. -/
theorem resolve_same_resource_and_idempotent_witness :
    (extract_post_id (shortPostUrl "abc123") = some "abc123"
      ∧ extract_post_id (canonicalPostUrl "monitors" "abc123" "t/") = some "abc123")
    ∧ extract_post_id (canonicalPostUrl "monitors" "abc123" "best/") = some "abc123" := by
  refine ⟨(resolve_same_resource_and_idempotent "monitors" "abc123" "t/"
    (by decide) (by decide) (by decide) (by decide)).1, ?_⟩
  exact (resolve_same_resource_and_idempotent "monitors" "abc123" "t/"
    (by decide) (by decide) (by decide) (by decide)).2
    (shortPostUrl "abc123") "abc123"
    ((resolve_same_resource_and_idempotent "monitors" "abc123" "t/"
      (by decide) (by decide) (by decide) (by decide)).1.1) "best/"
